import Mathlib

/-!
Shallow embedding of the fitparser FIT-file decoding engine.

The repository slice under verification exposes `src/fitparser/src/error.rs`
(the error taxonomy) directly; the decoding engine itself (byte cursor, CRC
engine, value decoder, definition table, developer field registry, record
decoder and file decoder) is described by the design specification and is
modelled here from that specification.  Definitions translated from
`error.rs` keep the source names; definitions modelled from the
specification carry a doc comment saying so.
-/

namespace Fitparser

/-- Modelled from the spec: FIT base types handled by the Value Decoder
(§3 Value, §4.3): signed/unsigned integers of width 1/2/4/8 bytes,
float32/float64 (kept as raw bit patterns, since the decoder only
reassembles bytes and compares sentinel bit patterns), strings and raw
byte arrays. -/
inductive BaseType where
  | uint8 | uint16 | uint32 | uint64
  | sint8 | sint16 | sint32 | sint64
  | float32 | float64
  | string | byteArr
  deriving DecidableEq, Repr

namespace BaseType

/-- Modelled from the spec: the declared byte width of each base type
(strings and byte arrays are sequences of width-1 units). -/
def width : BaseType → Nat
  | .uint8 => 1 | .uint16 => 2 | .uint32 => 4 | .uint64 => 8
  | .sint8 => 1 | .sint16 => 2 | .sint32 => 4 | .sint64 => 8
  | .float32 => 4 | .float64 => 8
  | .string => 1 | .byteArr => 1

/-- Modelled from the spec: each numeric base type has a fixed
invalid-value bit pattern — all bits set for unsigned integers and for the
float sentinels, the maximum positive value for signed integers.  Strings
and byte arrays carry no scalar sentinel pattern in the specification. -/
def invalidPattern : BaseType → Option Nat
  | .uint8 => some 0xFF
  | .uint16 => some 0xFFFF
  | .uint32 => some 0xFFFFFFFF
  | .uint64 => some 0xFFFFFFFFFFFFFFFF
  | .sint8 => some 0x7F
  | .sint16 => some 0x7FFF
  | .sint32 => some 0x7FFFFFFF
  | .sint64 => some 0x7FFFFFFFFFFFFFFF
  | .float32 => some 0xFFFFFFFF
  | .float64 => some 0xFFFFFFFFFFFFFFFF
  | .string => none
  | .byteArr => none

end BaseType

/-- Modelled from the spec: one scalar element of the decoded `Value`
union (§3): signed/unsigned integer widths 8/16/32/64, float32/float64
(raw bit patterns), string, byte array, plus an explicit "invalid" state
distinct from zero. -/
inductive ScalarValue where
  | u8 (v : Nat) | u16 (v : Nat) | u32 (v : Nat) | u64 (v : Nat)
  | s8 (v : Int) | s16 (v : Int) | s32 (v : Int) | s64 (v : Int)
  | f32bits (v : Nat) | f64bits (v : Nat)
  | str (s : String)
  | byteArray (bs : List Nat)
  | invalid
  deriving DecidableEq, Repr

/-- Modelled from the spec: a decoded `Value` (§3, §9): a scalar of the
union above, or a fixed-length array wrapping an ordered sequence of the
same element variant. -/
inductive Value where
  | scalar (v : ScalarValue)
  | array (vs : List ScalarValue)
  deriving DecidableEq, Repr

/-- Modelled from the spec: display of one scalar element; display must
distinguish "invalid" from a valid zero (§3). -/
def displayScalar : ScalarValue → String
  | .u8 v => toString v | .u16 v => toString v
  | .u32 v => toString v | .u64 v => toString v
  | .s8 v => toString v | .s16 v => toString v
  | .s32 v => toString v | .s64 v => toString v
  | .f32bits v => "f32:" ++ toString v
  | .f64bits v => "f64:" ++ toString v
  | .str s => s
  | .byteArray bs => toString bs
  | .invalid => "invalid"

/-- Modelled from the spec: display of a decoded value (§3). -/
def displayValue : Value → String
  | .scalar v => displayScalar v
  | .array vs => toString (vs.map displayScalar)

/-- Modelled from the spec: a FieldDefinition inside a Definition message
(§3): field definition number, size in bytes, base type. -/
structure FieldDefinition where
  fieldDefNum : Nat
  size : Nat
  baseType : BaseType
  deriving DecidableEq, Repr

/-- Modelled from the spec: a DeveloperFieldDefinition (§3): field
definition number, size in bytes, developer data index. -/
structure DeveloperFieldDefinition where
  fieldDefNum : Nat
  size : Nat
  devDataIndex : Nat
  deriving DecidableEq, Repr

/-- Modelled from the spec: a Definition (§3): global message number, byte
order for multi-byte fields, ordered field definitions, ordered developer
field definitions. -/
structure Definition where
  globalMsgNum : Nat
  bigEndian : Bool
  fields : List FieldDefinition
  devFields : List DeveloperFieldDefinition
  deriving DecidableEq, Repr

/-- Modelled from the spec: the FIT file header (§3): header length (12 or
14 bytes), protocol version, profile version, declared data-section size,
and the optional header CRC (present only in 14-byte headers). -/
structure FileHeader where
  headerLength : Nat
  protocolVersion : Nat
  profileVersion : Nat
  dataSize : Nat
  headerCrc : Option Nat
  deriving DecidableEq, Repr

/-- Modelled from the spec: a DecodedRecord (§3), tagged as Header,
Definition or Data; a Data record carries the global message number, the
compressed-timestamp context when present, and the ordered mapping from
field definition number to decoded Value. -/
inductive DecodedRecord where
  | headerRec (h : FileHeader)
  | definitionRec (localNum : Nat) (d : Definition)
  | dataRec (globalMsgNum : Nat) (timeOffset : Option Nat)
      (fields : List (Nat × Value))
  deriving DecidableEq, Repr

/-- Modelled from the spec: the object bundled inside a CRC-mismatch error
(`FitObject` in `de.rs`, which is outside the visible slice): either the
parsed file header (header-CRC checkpoint) or the full record stream
(file-CRC checkpoint), per §4.2 and §7. -/
inductive FitObject where
  | header (h : FileHeader)
  | records (rs : List DecodedRecord)
  deriving DecidableEq, Repr

/-- Whether a `FitObject` is the header variant (`FitObject::Header(_)` in
the source's `Display` match). -/
def FitObject.isHeader : FitObject → Bool
  | .header _ => true
  | .records _ => false

/-- Stand-in for `std::io::Error` as it appears in `ErrorKind::Io`: an
opaque payload with a display message and no positional information. -/
structure IoError where
  message : String
  deriving DecidableEq, Repr

/-- Stand-in for `nom::Needed` as it appears in
`ErrorKind::UnexpectedEof`: either a known required byte count or an
unknown shortfall. -/
inductive NomNeeded where
  | Size (n : Nat)
  | Unknown
  deriving DecidableEq, Repr

/-- Stand-in for `nom::error::ErrorKind` as it appears in
`ErrorKind::ParseError`: an opaque combinator tag with a description. -/
structure NomErrorKind where
  description : String
  deriving DecidableEq, Repr

/-- The error taxonomy, translated from `ErrorKind` in
`src/fitparser/src/error.rs`.  Payloads follow the source exactly:
`InvalidCrc` carries, in order, the raw input bytes, the successfully
parsed `FitObject`, the expected CRC and the calculated CRC;
`MissingDefinitionMessage` carries the local message number and the byte
position; `TrailingBytes` carries the remaining byte count; `ParseError`
carries the byte position and the nom error kind; `UnexpectedEof` carries
the nom `Needed`; `ValueError` carries a message; and
`MissingDeveloperDefinitionMessage` carries nothing. -/
inductive ErrorKind where
  | InvalidCrc (raw : List Nat) (obj : FitObject)
      (expected : Nat) (calculated : Nat)
  | Io (err : IoError)
  | MissingDefinitionMessage (localNum : Nat) (position : Nat)
  | TrailingBytes (remaining : Nat)
  | ParseError (position : Nat) (err : NomErrorKind)
  | UnexpectedEof (needed : NomNeeded)
  | ValueError (message : String)
  | MissingDeveloperDefinitionMessage
  deriving DecidableEq, Repr

deriving instance DecidableEq for Except

/-- Rust's alternate-hex formatting of an unsigned position: `0x`
followed by lowercase hexadecimal digits. -/
def hexFormat (n : Nat) : String :=
  "0x" ++ String.mk (Nat.toDigits 16 n)

/-- Translated from `impl fmt::Display for ErrorKind` in
`src/fitparser/src/error.rs`: the displayed message of each error kind. -/
def displayErrorKind : ErrorKind → String
  | .InvalidCrc _ obj expVal calcVal =>
    match obj with
    | .header _ =>
      "CRC value for header did not match, expected value " ++
        toString expVal ++ ", calculated value " ++ toString calcVal
    | _ =>
      "CRC value for data did not match, expected value " ++
        toString expVal ++ ", calculated value " ++ toString calcVal
  | .Io ioerr => "io error: " ++ ioerr.message
  | .TrailingBytes rem =>
    toString rem ++ " bytes remain past expected EOF location"
  | .MissingDefinitionMessage localNumber position =>
    "No definition found for local message number " ++
      toString localNumber ++ " at position " ++ hexFormat position
  | .ParseError pos err =>
    "parser error: '" ++ err.description ++ "' at position: " ++
      hexFormat pos
  | .UnexpectedEof (.Size n) =>
    "parser error: requires " ++ toString n ++ " more bytes"
  | .UnexpectedEof .Unknown => "parser error: requires more data"
  | .ValueError message => "value error: " ++ message
  | .MissingDeveloperDefinitionMessage =>
    "developer field referenced before being defined"

/-- Modelled from the spec: the §7 taxonomy's recoverability column.
CRC mismatch is recoverable and trailing bytes are reported but
non-fatal; every other kind is fatal. -/
def ErrorKind.isFatal : ErrorKind → Bool
  | .InvalidCrc _ _ _ _ => false
  | .TrailingBytes _ => false
  | .Io _ => true
  | .MissingDefinitionMessage _ _ => true
  | .ParseError _ _ => true
  | .UnexpectedEof _ => true
  | .ValueError _ => true
  | .MissingDeveloperDefinitionMessage => true

/-- The byte offset carried by an error value, read off the payloads in
`error.rs`: `MissingDefinitionMessage` and `ParseError` carry a byte
position; no other kind does. -/
def ErrorKind.byteOffset : ErrorKind → Option Nat
  | .MissingDefinitionMessage _ position => some position
  | .ParseError position _ => some position
  | _ => none

/-- The channel (local message) number carried by an error value, read off
the payloads in `error.rs`: only `MissingDefinitionMessage` names a
channel. -/
def ErrorKind.channelNumber : ErrorKind → Option Nat
  | .MissingDefinitionMessage localNum _ => some localNum
  | _ => none

/-- Modelled from the spec: the §7 "channel errors" are the
missing-definition errors, which reference an undefined local channel. -/
def ErrorKind.isChannelError : ErrorKind → Bool
  | .MissingDefinitionMessage _ _ => true
  | _ => false

/-- The components of an `InvalidCrc` error, in payload order: raw bytes,
parsed object, expected CRC, calculated CRC. -/
def ErrorKind.invalidCrcPayload :
    ErrorKind → Option (List Nat × FitObject × Nat × Nat)
  | .InvalidCrc raw obj e c => some (raw, obj, e, c)
  | _ => none

/-- The message the claimed `Display` behaviour predicts for a CRC
mismatch: "header" exactly when the bundled object is a header, "data"
otherwise, always quoting expected and calculated values. -/
def crcMismatchText (isHdr : Bool) (e c : Nat) : String :=
  "CRC value for " ++ (if isHdr then "header" else "data") ++
    " did not match, expected value " ++ toString e ++
    ", calculated value " ++ toString c

/-- Modelled from the spec: reassembly of a little-endian byte span into
its numeric bit pattern (first byte least significant). -/
def assembleLE (bytes : List Nat) : Nat :=
  bytes.foldr (fun b acc => b + 256 * acc) 0

/-- Modelled from the spec: reassembly of a byte span per the declared
byte order (§4.3): big endian reads the same bytes most-significant
first. -/
def assembleRaw (bigEndian : Bool) (bytes : List Nat) : Nat :=
  if bigEndian then assembleLE bytes.reverse else assembleLE bytes

/-- Two's-complement reinterpretation of a `w`-byte bit pattern as a
signed integer. -/
def toSigned (w : Nat) (raw : Nat) : Int :=
  if raw < 2 ^ (8 * w - 1) then (raw : Int) else (raw : Int) - 2 ^ (8 * w)

/-- Modelled from the spec: the numeric interpretation of a reassembled
bit pattern at each base type (used when the pattern is not the invalid
sentinel). -/
def numericValue (bt : BaseType) (raw : Nat) : ScalarValue :=
  match bt with
  | .uint8 => .u8 raw | .uint16 => .u16 raw
  | .uint32 => .u32 raw | .uint64 => .u64 raw
  | .sint8 => .s8 (toSigned 1 raw) | .sint16 => .s16 (toSigned 2 raw)
  | .sint32 => .s32 (toSigned 4 raw) | .sint64 => .s64 (toSigned 8 raw)
  | .float32 => .f32bits raw | .float64 => .f64bits raw
  | .string => .byteArray [raw]
  | .byteArr => .byteArray [raw]

/-- Modelled from the spec (§4.3): decode one scalar element — reassemble
the bytes per the declared byte order, and produce the "invalid" tag when
the raw pattern equals the base type's invalid sentinel exactly,
regardless of numeric interpretation. -/
def decodeScalar (bt : BaseType) (bigEndian : Bool)
    (bytes : List Nat) : ScalarValue :=
  let raw := assembleRaw bigEndian bytes
  match bt.invalidPattern with
  | some p => if raw = p then .invalid else numericValue bt raw
  | none => numericValue bt raw

/-- Split a byte span into consecutive element spans of width `w`; the
fuel argument bounds the recursion by the span length. -/
def chunkBytes (w : Nat) : Nat → List Nat → List (List Nat)
  | 0, _ => []
  | _, [] => []
  | fuel + 1, b :: rest =>
    (b :: rest).take w :: chunkBytes w fuel ((b :: rest).drop w)

/-- Modelled from the spec: the string decode rule (§4.3): a fixed-width
byte span truncated at the first null byte. -/
def stringValue (bytes : List Nat) : ScalarValue :=
  .str (String.mk ((bytes.takeWhile (fun b => b ≠ 0)).map Char.ofNat))

/-- Modelled from the spec: the Value Decoder (§4.3).  Given a base type,
the Definition's byte-order flag and the field's byte span: strings are
fixed-width and null-truncated; byte arrays are taken raw; a numeric span
of exactly the type's width decodes as a scalar; a longer span decodes as
an array of repeated fixed-width elements, but only when the total size is
an exact multiple of the element width — otherwise the layout is a
value-layer contract violation (`ValueError`). -/
def decodeFieldValue (bt : BaseType) (bigEndian : Bool)
    (bytes : List Nat) : Except ErrorKind Value :=
  match bt with
  | .string => .ok (.scalar (stringValue bytes))
  | .byteArr => .ok (.scalar (.byteArray bytes))
  | _ =>
    if bytes.length = bt.width then
      .ok (.scalar (decodeScalar bt bigEndian bytes))
    else if bytes.length % bt.width = 0 ∧ bytes.length ≠ 0 then
      .ok (.array ((chunkBytes bt.width bytes.length bytes).map
        (decodeScalar bt bigEndian)))
    else
      .error (.ValueError
        "field size is not a multiple of the base type width")

/-- Modelled from the spec: the canonical zero value of each base type,
used to state that "invalid" is distinct from a valid zero (§3). -/
def zeroValue (bt : BaseType) : ScalarValue :=
  match bt with
  | .uint8 => .u8 0 | .uint16 => .u16 0 | .uint32 => .u32 0
  | .uint64 => .u64 0
  | .sint8 => .s8 0 | .sint16 => .s16 0 | .sint32 => .s32 0
  | .sint64 => .s64 0
  | .float32 => .f32bits 0 | .float64 => .f64bits 0
  | .string => .str "" | .byteArr => .byteArray []

/-- Modelled from the spec: the Definition Table (§4.4): a per-local-
channel-number registry of the currently active Definition, one live
definition per channel. -/
def DefinitionTable : Type := Nat → Option Definition

/-- Modelled from the spec: the empty table at the start of a decode
session — no channel has ever been defined. -/
def emptyTable : DefinitionTable := fun _ => none

/-- Modelled from the spec (§4.4): `define(local_number, definition)` —
unconditional replace of the channel's active Definition, no merging and
no validation against prior state. -/
def define (t : DefinitionTable) (localNum : Nat) (d : Definition) :
    DefinitionTable :=
  fun m => if m = localNum then some d else t m

/-- Modelled from the spec (§4.4): `lookup(local_number)` — fails with
`MissingDefinitionMessage(local_number, position)` if no definition has
ever been registered for that channel. -/
def lookup (t : DefinitionTable) (localNum : Nat) (position : Nat) :
    Except ErrorKind Definition :=
  match t localNum with
  | some d => .ok d
  | none => .error (.MissingDefinitionMessage localNum position)

/-- Modelled from the spec: the Developer Field Registry's field-
description sub-table (§3, §4.5): (developer data index, field definition
number) mapped to (byte size, base type). -/
def DevRegistry : Type := List ((Nat × Nat) × (Nat × BaseType))

/-- Modelled from the spec: find the field-description entry for a
(developer data index, field definition number) pair. -/
def findDesc (reg : DevRegistry) (devIdx fieldNum : Nat) :
    Option (Nat × BaseType) :=
  (reg.find? (fun e => e.1 = (devIdx, fieldNum))).map (·.2)

/-- Modelled from the spec (§4.5): `register_field_description(entry)` —
record the (size, base type) for a (developer data index, field
definition number) pair, replacing any previous entry for that pair. -/
def registerFieldDescription (reg : DevRegistry)
    (devIdx fieldNum size : Nat) (bt : BaseType) : DevRegistry :=
  ((devIdx, fieldNum), (size, bt)) :: reg

/-- Modelled from the spec (§4.5): `resolve(developer_data_index,
field_definition_number)` — fails with `MissingDeveloperDefinitionMessage`
if the field description has not yet been seen. -/
def resolve (reg : DevRegistry) (devIdx fieldNum : Nat) :
    Except ErrorKind (Nat × BaseType) :=
  match findDesc reg devIdx fieldNum with
  | some entry => .ok entry
  | none => .error .MissingDeveloperDefinitionMessage

/-- Modelled from the spec: decode the ordinary fields of a data message
(§4.6): for each FieldDefinition in order, read its declared byte width
and decode via the Value Decoder using the Definition's byte order. -/
def decodeFields (bigEndian : Bool) :
    List FieldDefinition → List Nat →
    Except ErrorKind (List (Nat × Value) × List Nat)
  | [], bytes => .ok ([], bytes)
  | f :: rest, bytes =>
    if bytes.length < f.size then
      .error (.UnexpectedEof (.Size (f.size - bytes.length)))
    else do
      let v ← decodeFieldValue f.baseType bigEndian (bytes.take f.size)
      let (vs, rem) ← decodeFields bigEndian rest (bytes.drop f.size)
      .ok ((f.fieldDefNum, v) :: vs, rem)

/-- Modelled from the spec: decode the developer fields of a data message
(§4.6): for each DeveloperFieldDefinition, resolve size and base type via
the Developer Field Registry, then decode identically to ordinary
fields. -/
def decodeDevFields (bigEndian : Bool) (reg : DevRegistry) :
    List DeveloperFieldDefinition → List Nat →
    Except ErrorKind (List (Nat × Value) × List Nat)
  | [], bytes => .ok ([], bytes)
  | f :: rest, bytes => do
    let (size, bt) ← resolve reg f.devDataIndex f.fieldDefNum
    if bytes.length < size then
      .error (.UnexpectedEof (.Size (size - bytes.length)))
    else do
      let v ← decodeFieldValue bt bigEndian (bytes.take size)
      let (vs, rem) ← decodeDevFields bigEndian reg rest (bytes.drop size)
      .ok ((f.fieldDefNum, v) :: vs, rem)

/-- Modelled from the spec: decode the whole field payload of a data
message against its Definition (§4.6): ordinary fields first, developer
fields after, assembling the ordered field map. -/
def decodeDataFields (d : Definition) (reg : DevRegistry)
    (bytes : List Nat) :
    Except ErrorKind (List (Nat × Value) × List Nat) := do
  let (vs, rem) ← decodeFields d.bigEndian d.fields bytes
  let (dvs, rem2) ← decodeDevFields d.bigEndian reg d.devFields rem
  .ok (vs ++ dvs, rem2)

/-- Modelled from the spec: the FIT base-type identifier byte of the wire
protocol, mapped to the modelled base type (unknown identifiers are a
grammar violation). -/
def baseTypeFromCode (code : Nat) : Option BaseType :=
  if code = 0x01 then some .sint8
  else if code = 0x02 then some .uint8
  else if code = 0x83 then some .sint16
  else if code = 0x84 then some .uint16
  else if code = 0x85 then some .sint32
  else if code = 0x86 then some .uint32
  else if code = 0x07 then some .string
  else if code = 0x88 then some .float32
  else if code = 0x89 then some .float64
  else if code = 0x0D then some .byteArr
  else if code = 0x8E then some .sint64
  else if code = 0x8F then some .uint64
  else none

/-- The wire identifier of each modelled base type (inverse of
`baseTypeFromCode`). -/
def baseTypeCode : BaseType → Nat
  | .sint8 => 0x01 | .uint8 => 0x02
  | .sint16 => 0x83 | .uint16 => 0x84
  | .sint32 => 0x85 | .uint32 => 0x86
  | .string => 0x07
  | .float32 => 0x88 | .float64 => 0x89
  | .byteArr => 0x0D
  | .sint64 => 0x8E | .uint64 => 0x8F

/-- Extract a `u8`-valued field from a decoded field map by field
definition number. -/
def fieldU8 (fields : List (Nat × Value)) (n : Nat) : Option Nat :=
  match fields.find? (fun p => p.1 = n) with
  | some (_, .scalar (.u8 v)) => some v
  | _ => none

/-- Modelled from the spec: the well-known "field description" global
message number, a fixed protocol constant (§6). -/
def fieldDescriptionGlobalNum : Nat := 206

/-- Modelled from the spec (§4.5, §4.6): the Developer Field Registry is
updated as a side effect of decoding an ordinary data message whose
global message number is the well-known field-description type; field 0
carries the developer data index, field 1 the field definition number and
field 2 the base-type identifier. -/
def updateRegistry (reg : DevRegistry) (globalNum : Nat)
    (fields : List (Nat × Value)) : DevRegistry :=
  if globalNum = fieldDescriptionGlobalNum then
    match fieldU8 fields 0, fieldU8 fields 1, fieldU8 fields 2 with
    | some devIdx, some fieldNum, some code =>
      match baseTypeFromCode code with
      | some bt => registerFieldDescription reg devIdx fieldNum bt.width bt
      | none => reg
    | _, _, _ => reg
  else reg

/-- Modelled from the spec: the parsed one-byte record header (§3): a
normal header carries the definition-vs-data bit, the developer-data bit
and a 4-bit local message number; a compressed-timestamp header (top bit
set) carries a small local message number and a 5-bit time offset and is
always a data message.  (The spec text ascribes 3 bits to the compressed
local number, which cannot fit beside the set top bit and the 5-bit
offset; the protocol's 2-bit field is used.) -/
structure RecordHeaderInfo where
  isDefinition : Bool
  hasDevFields : Bool
  localNum : Nat
  timeOffset : Option Nat
  deriving DecidableEq, Repr

/-- Modelled from the spec: decode the single record-header byte (§3). -/
def parseRecordHeader (b : Nat) : RecordHeaderInfo :=
  if b ≥ 128 then
    ⟨false, false, b / 32 % 4, some (b % 32)⟩
  else
    ⟨b / 64 % 2 = 1, b / 32 % 2 = 1, b % 16, none⟩

/-- Modelled from the spec: the Byte Cursor's bounded read (§4.1): the
next `n` bytes, or an EOF-kind error carrying the number of bytes still
required. -/
def readBytes (n : Nat) (bytes : List Nat) :
    Except ErrorKind (List Nat × List Nat) :=
  if bytes.length < n then
    .error (.UnexpectedEof (.Size (n - bytes.length)))
  else .ok (bytes.take n, bytes.drop n)

/-- Modelled from the spec: parse `n` three-byte ordinary field specs
(field definition number, size, base-type identifier) of a definition
message (§4.6). -/
def parseFieldSpecs (pos : Nat) :
    Nat → List Nat → Except ErrorKind (List FieldDefinition × List Nat)
  | 0, bytes => .ok ([], bytes)
  | n + 1, bytes =>
    match bytes with
    | num :: size :: code :: rest =>
      match baseTypeFromCode code with
      | some bt => do
        let (fs, rem) ← parseFieldSpecs pos n rest
        .ok (⟨num, size, bt⟩ :: fs, rem)
      | none => .error (.ParseError pos ⟨"unknown base type identifier"⟩)
    | _ => .error (.UnexpectedEof (.Size (3 * (n + 1) - bytes.length)))

/-- Modelled from the spec: parse `n` three-byte developer field specs
(field definition number, size, developer data index) of a definition
message (§4.6). -/
def parseDevFieldSpecs :
    Nat → List Nat →
    Except ErrorKind (List DeveloperFieldDefinition × List Nat)
  | 0, bytes => .ok ([], bytes)
  | n + 1, bytes =>
    match bytes with
    | num :: size :: devIdx :: rest => do
      let (fs, rem) ← parseDevFieldSpecs n rest
      .ok (⟨num, size, devIdx⟩ :: fs, rem)
    | _ => .error (.UnexpectedEof (.Size (3 * (n + 1) - bytes.length)))

/-- Modelled from the spec: parse the body of a definition message after
its header byte (§4.6): reserved byte, architecture byte selecting the
byte order, global message number in that byte order, field count and
field specs, then developer-field count and specs when the header's
developer-data bit is set. -/
def parseDefinitionBody (hasDev : Bool) (pos : Nat) (bytes : List Nat) :
    Except ErrorKind (Definition × List Nat) := do
  let (pro, rest) ← readBytes 2 bytes
  let arch := pro.getD 1 0
  if arch ≥ 2 then
    .error (.ParseError pos ⟨"invalid architecture byte"⟩)
  else do
    let bigE := arch = 1
    let (gbytes, rest2) ← readBytes 2 rest
    let global := assembleRaw bigE gbytes
    let (cnt, rest3) ← readBytes 1 rest2
    let (fs, rest4) ← parseFieldSpecs pos (cnt.getD 0 0) rest3
    if hasDev then do
      let (dcnt, rest5) ← readBytes 1 rest4
      let (dfs, rest6) ← parseDevFieldSpecs (dcnt.getD 0 0) rest5
      .ok (⟨global, bigE, fs, dfs⟩, rest6)
    else
      .ok (⟨global, bigE, fs, []⟩, rest4)

/-- Modelled from the spec: the Record Decoder's session state (§4.6):
the Definition Table and the Developer Field Registry, which persist
across the whole session, and the Byte Cursor's position. -/
structure DecoderState where
  table : DefinitionTable
  registry : DevRegistry
  pos : Nat

/-- Modelled from the spec: decode one record (§4.6): read the record
header byte at the current position; a definition message registers the
parsed Definition under the header's local number; a data message looks
up the active Definition for the header's local number — fatal
`MissingDefinitionMessage` citing the channel and the record header's
byte offset when none was ever registered — decodes its fields, and
applies the developer-registry side effect. -/
def decodeRecord (st : DecoderState) (bytes : List Nat) :
    Except ErrorKind (DecodedRecord × DecoderState × List Nat) :=
  match bytes with
  | [] => .error (.UnexpectedEof (.Size 1))
  | b :: rest =>
    let h := parseRecordHeader b
    if h.isDefinition then do
      let (d, rem) ← parseDefinitionBody h.hasDevFields st.pos rest
      .ok (.definitionRec h.localNum d,
        ⟨define st.table h.localNum d, st.registry,
          st.pos + (1 + (rest.length - rem.length))⟩, rem)
    else do
      let d ← lookup st.table h.localNum st.pos
      let (fields, rem) ← decodeDataFields d st.registry rest
      .ok (.dataRec d.globalMsgNum h.timeOffset fields,
        ⟨st.table, updateRegistry st.registry d.globalMsgNum fields,
          st.pos + (1 + (rest.length - rem.length))⟩, rem)

/-- Modelled from the spec: the File Decoder's record loop (§4.7): drive
the Record Decoder until the Byte Cursor's position reaches the declared
end of the data section; the fuel argument bounds the recursion by the
remaining byte count. -/
def decodeRecords (endPos : Nat) :
    Nat → DecoderState → List Nat →
    Except ErrorKind (List DecodedRecord × DecoderState × List Nat)
  | 0, st, bytes =>
    if st.pos < endPos then .error (.UnexpectedEof .Unknown)
    else .ok ([], st, bytes)
  | fuel + 1, st, bytes =>
    if st.pos < endPos then do
      let (r, st2, rem) ← decodeRecord st bytes
      let (rs, st3, rem2) ← decodeRecords endPos fuel st2 rem
      .ok (r :: rs, st3, rem2)
    else .ok ([], st, bytes)

/-- Modelled from the spec: the FIT 16-bit CRC lookup table (§4.2), the
protocol's fixed table-driven checksum. -/
def crcTable : List Nat :=
  [0x0000, 0xCC01, 0xD801, 0x1401, 0xF001, 0x3C01, 0x2801, 0xE401,
   0xA001, 0x6C01, 0x7801, 0xB401, 0x5001, 0x9C01, 0x8801, 0x4401]

/-- Modelled from the spec: one nibble step of the FIT CRC update. -/
def crcNibble (crc nibble : Nat) : Nat :=
  Nat.xor (Nat.xor ((crc / 16) % 4096) (crcTable.getD (crc % 16) 0))
    (crcTable.getD (nibble % 16) 0)

/-- Modelled from the spec: feed one byte to the running FIT CRC, low
nibble first. -/
def crcByte (crc b : Nat) : Nat :=
  crcNibble (crcNibble crc (b % 16)) (b / 16 % 16)

/-- Modelled from the spec: the FIT 16-bit checksum of a byte sequence
(§4.2), starting from zero. -/
def fitCrc (bytes : List Nat) : Nat := bytes.foldl crcByte 0

/-- Modelled from the spec: parse and validate the file header (§3,
§4.7): length byte (12 or 14), protocol and profile versions, declared
data size (little endian), the mandatory `.FIT` signature, and — for
14-byte headers with a nonzero stored header CRC — the header CRC
checkpoint, whose mismatch is reported as a recoverable `InvalidCrc`
bundling the otherwise-successfully parsed header. -/
def parseFileHeader (bytes : List Nat) :
    Except ErrorKind (FileHeader × List Nat) :=
  match bytes with
  | [] => .error (.UnexpectedEof (.Size 12))
  | len :: _ =>
    if len ≠ 12 ∧ len ≠ 14 then
      .error (.ParseError 0 ⟨"invalid header length"⟩)
    else if bytes.length < len then
      .error (.UnexpectedEof (.Size (len - bytes.length)))
    else
      let proto := bytes.getD 1 0
      let profile := assembleLE [bytes.getD 2 0, bytes.getD 3 0]
      let dsize := assembleLE
        [bytes.getD 4 0, bytes.getD 5 0, bytes.getD 6 0, bytes.getD 7 0]
      let sig :=
        [bytes.getD 8 0, bytes.getD 9 0, bytes.getD 10 0, bytes.getD 11 0]
      if sig ≠ [0x2E, 0x46, 0x49, 0x54] then
        .error (.ParseError 8 ⟨"invalid signature"⟩)
      else if len = 14 then
        let stored := assembleLE [bytes.getD 12 0, bytes.getD 13 0]
        let hdr : FileHeader := ⟨len, proto, profile, dsize, some stored⟩
        let calcVal := fitCrc (bytes.take 12)
        if stored ≠ 0 ∧ stored ≠ calcVal then
          .error (.InvalidCrc (bytes.take 14) (.header hdr) stored calcVal)
        else .ok (hdr, bytes.drop 14)
      else .ok (⟨len, proto, profile, dsize, none⟩, bytes.drop 12)

/-- Modelled from the spec: the File Decoder's successful outcome (§4.7,
§7): the full record sequence, together with the non-fatal trailing-bytes
report when unconsumed bytes remain before the trailing CRC. -/
structure FitDecodeResult where
  records : List DecodedRecord
  trailing : Option ErrorKind

/-- Modelled from the spec: the File Decoder (§4.7): validate the header,
drive the record loop until the declared data size is consumed, report
unconsumed bytes before the trailing CRC as non-fatal `TrailingBytes`,
and perform the final CRC checkpoint over every byte from the start of
the file through the end of the data section — a mismatch is the
recoverable `InvalidCrc` bundling the full, otherwise-successfully parsed
record stream with the expected and calculated values. -/
def decodeFile (bytes : List Nat) : Except ErrorKind FitDecodeResult := do
  let (hdr, rest) ← parseFileHeader bytes
  let endPos := hdr.headerLength + hdr.dataSize
  let (rs, _, rem) ←
    decodeRecords endPos rest.length ⟨emptyTable, [], hdr.headerLength⟩ rest
  if rem.length < 2 then
    .error (.UnexpectedEof (.Size (2 - rem.length)))
  else do
    let trailingCount := rem.length - 2
    let expected := assembleLE (rem.drop trailingCount)
    let calcVal := fitCrc (bytes.take endPos)
    let records := .headerRec hdr :: rs
    if expected = calcVal then
      .ok ⟨records,
        if trailingCount = 0 then none
        else some (.TrailingBytes trailingCount)⟩
    else
      .error (.InvalidCrc bytes (.records records) expected calcVal)

/-- The `w` little-endian bytes of a bit pattern. -/
def leBytes : Nat → Nat → List Nat
  | 0, _ => []
  | w + 1, raw => raw % 256 :: leBytes w (raw / 256)

/-- Serialize a `w`-byte bit pattern in the declared byte order (the
inverse of `assembleRaw` on in-range patterns). -/
def encodeScalar (w : Nat) (bigEndian : Bool) (raw : Nat) : List Nat :=
  if bigEndian then (leBytes w raw).reverse else leBytes w raw

/-- Modelled from the spec: serialize one scalar element back to the byte
span a field of the given base type would occupy (the test-oriented
encoder of §8's round-trip property); the "invalid" tag serializes to the
base type's invalid-sentinel pattern. -/
def encodeScalarValue (bigEndian : Bool) (bt : BaseType) :
    ScalarValue → List Nat
  | .u8 v => encodeScalar 1 bigEndian v
  | .u16 v => encodeScalar 2 bigEndian v
  | .u32 v => encodeScalar 4 bigEndian v
  | .u64 v => encodeScalar 8 bigEndian v
  | .s8 v => encodeScalar 1 bigEndian (v % 2 ^ 8).toNat
  | .s16 v => encodeScalar 2 bigEndian (v % 2 ^ 16).toNat
  | .s32 v => encodeScalar 4 bigEndian (v % 2 ^ 32).toNat
  | .s64 v => encodeScalar 8 bigEndian (v % 2 ^ 64).toNat
  | .f32bits v => encodeScalar 4 bigEndian v
  | .f64bits v => encodeScalar 8 bigEndian v
  | .str s => s.data.map Char.toNat
  | .byteArray bs => bs
  | .invalid =>
    match bt.invalidPattern with
    | some p => encodeScalar bt.width bigEndian p
    | none => []

/-- Modelled from the spec: serialize one decoded Value (§8's round-trip
property): a scalar serializes directly, an array serializes its elements
back to back. -/
def encodeValue (bigEndian : Bool) (bt : BaseType) : Value → List Nat
  | .scalar v => encodeScalarValue bigEndian bt v
  | .array vs => (vs.map (encodeScalarValue bigEndian bt)).flatten

/-- Serialize one ordinary field spec of a definition message. -/
def encodeFieldSpec (f : FieldDefinition) : List Nat :=
  [f.fieldDefNum, f.size, baseTypeCode f.baseType]

/-- Modelled from the spec: serialize a Definition as a definition
message without developer fields (§4.6): header byte with the definition
bit and the local number, reserved byte, architecture byte, global
message number in the declared byte order, field count, field specs. -/
def encodeDefinitionMessage (localNum : Nat) (d : Definition) : List Nat :=
  (64 + localNum) :: 0 :: (if d.bigEndian then 1 else 0) ::
    (encodeScalar 2 d.bigEndian d.globalMsgNum ++
      [d.fields.length] ++ (d.fields.map encodeFieldSpec).flatten)

/-- Modelled from the spec: serialize a matching data message for a
Definition (§8's round-trip property): a normal data header byte citing
the local number, then each field value serialized at its declared base
type in the Definition's byte order. -/
def encodeDataMessage (localNum : Nat) (d : Definition)
    (vals : List Value) : List Nat :=
  localNum ::
    ((List.zip d.fields vals).map
      (fun p => encodeValue d.bigEndian p.1.baseType p.2)).flatten

/-- Modelled from the spec: decoding one data message against the session
state (§4.4, §4.6): look up the active Definition for the cited local
number — failing with `MissingDefinitionMessage` when the channel was
never defined — then decode the field payload against that Definition. -/
def decodeDataMessage (t : DefinitionTable) (reg : DevRegistry)
    (localNum pos : Nat) (bytes : List Nat) :
    Except ErrorKind (List (Nat × Value)) := do
  let d ← lookup t localNum pos
  let (fs, _) ← decodeDataFields d reg bytes
  .ok fs

/-- A 12-byte fixture file header: protocol 0x10, profile 0x0854,
declared data size 7, `.FIT` signature, no header CRC. -/
def fixtureHeader12 : List Nat :=
  [12, 16, 84, 8, 7, 0, 0, 0, 46, 70, 73, 84]

/-- The parsed form of `fixtureHeader12`. -/
def fixtureHeader : FileHeader := ⟨12, 16, 2132, 7, none⟩

/-- A 7-byte fixture record stream: a definition message with no fields
for local number 0 and global number 20, then one data message for local
number 0. -/
def fixtureRecords : List Nat := [64, 0, 0, 20, 0, 0, 0]

/-- The Definition registered by `fixtureRecords`. -/
def fixtureDefinition : Definition := ⟨20, false, [], []⟩

/-- The records decoded from `fixtureRecords`. -/
def fixtureDecoded : List DecodedRecord :=
  [.definitionRec 0 fixtureDefinition, .dataRec 20 none []]

/-- A complete fixture file whose trailing CRC is deliberately off by
one: the FIT CRC of its first 19 bytes is 59255, while the stored
expected value is 59256. -/
def crcMismatchFile : List Nat :=
  fixtureHeader12 ++ fixtureRecords ++ [120, 231]

/-- A 14-byte file header whose stored header CRC (1) differs from the
calculated header CRC of its first 12 bytes (28566). -/
def badHeaderCrcBytes : List Nat :=
  [14, 16, 84, 8, 7, 0, 0, 0, 46, 70, 73, 84, 1, 0]

/-- A complete fixture file declaring a data size 4 bytes short of the
bytes present: after the 7 consumed record bytes, 4 unconsumed bytes
remain before the trailing CRC, which matches the data section. -/
def trailingBytesFile : List Nat :=
  fixtureHeader12 ++ fixtureRecords ++ [170, 187, 204, 221] ++ [119, 231]

/-- The synthetic Definition of the round-trip fixture: two unsigned
16-bit fields, little endian. -/
def syntheticDefinition : Definition :=
  ⟨20, false, [⟨1, 2, .uint16⟩, ⟨2, 2, .uint16⟩], []⟩

/-- The synthetic field values of the round-trip fixture: a valid value
and the invalid sentinel. -/
def syntheticValues : List Value :=
  [.scalar (.u16 4660), .scalar .invalid]

/-- The round-trip byte stream: the encoded synthetic Definition message
followed by the encoded matching data message. -/
def roundTripStream : List Nat :=
  encodeDefinitionMessage 0 syntheticDefinition ++
    encodeDataMessage 0 syntheticDefinition syntheticValues

/-- Claim C10: every CRC-mismatch error value carries, in order, the raw
input bytes, the successfully parsed FitObject, the expected CRC and the
calculated CRC; its displayed message reports a header CRC mismatch
exactly when the bundled FitObject is a Header, and a data CRC mismatch
otherwise, always quoting both the expected and the calculated value —
and the header-form and data-form messages are never the same string. -/
theorem claim_c10 (raw : List Nat) (obj : FitObject) (e c : Nat) :
    ErrorKind.invalidCrcPayload (.InvalidCrc raw obj e c) =
      some (raw, obj, e, c) ∧
    displayErrorKind (.InvalidCrc raw obj e c) =
      crcMismatchText obj.isHeader e c ∧
    crcMismatchText true e c ≠ crcMismatchText false e c := by
  refine ⟨rfl, ?_, ?_⟩
  · cases obj <;> rfl
  · intro h
    have h2 := congrArg String.length h
    have e1 : ("header" : String).length = 6 := rfl
    have e2 : ("data" : String).length = 4 := rfl
    simp only [crcMismatchText, String.length_append, Bool.false_eq_true,
      if_true, if_false, e1, e2] at h2
    omega

/-- Claim C2 (amended): among the fatal error kinds, exactly
`MissingDefinitionMessage` and `ParseError` carry a byte offset, and the
channel error `MissingDefinitionMessage` additionally carries the channel
number; the remaining fatal kinds — `Io`, `UnexpectedEof`, `ValueError`
and `MissingDeveloperDefinitionMessage` — carry no byte offset at all. -/
theorem claim_c2 (localNum pos parsePos : Nat) (nerr : NomErrorKind)
    (needed : NomNeeded) (msg : String) (ioerr : IoError) :
    ErrorKind.isFatal (.MissingDefinitionMessage localNum pos) = true ∧
    ErrorKind.byteOffset (.MissingDefinitionMessage localNum pos) =
      some pos ∧
    ErrorKind.isChannelError (.MissingDefinitionMessage localNum pos) =
      true ∧
    ErrorKind.channelNumber (.MissingDefinitionMessage localNum pos) =
      some localNum ∧
    ErrorKind.isFatal (.ParseError parsePos nerr) = true ∧
    ErrorKind.byteOffset (.ParseError parsePos nerr) = some parsePos ∧
    ErrorKind.isFatal (.Io ioerr) = true ∧
    ErrorKind.byteOffset (.Io ioerr) = none ∧
    ErrorKind.isFatal (.UnexpectedEof needed) = true ∧
    ErrorKind.byteOffset (.UnexpectedEof needed) = none ∧
    ErrorKind.isFatal (.ValueError msg) = true ∧
    ErrorKind.byteOffset (.ValueError msg) = none ∧
    ErrorKind.isFatal .MissingDeveloperDefinitionMessage = true ∧
    ErrorKind.byteOffset .MissingDeveloperDefinitionMessage = none :=
  ⟨rfl, rfl, rfl, rfl, rfl, rfl, rfl, rfl, rfl, rfl, rfl, rfl, rfl, rfl⟩

/-- Claim C2 is false as stated: not every fatal error kind carries a
byte offset — `MissingDeveloperDefinitionMessage` is fatal yet its
payload is empty, so it carries no positional context. -/
theorem claim_c2_counterexample :
    ¬ (∀ er : ErrorKind, er.isFatal = true →
        (er.byteOffset).isSome = true) ∧
    ErrorKind.isFatal .MissingDeveloperDefinitionMessage = true ∧
    ErrorKind.byteOffset .MissingDeveloperDefinitionMessage = none := by
  refine ⟨fun h => ?_, rfl, rfl⟩
  have h2 := h .MissingDeveloperDefinitionMessage rfl
  simp [ErrorKind.byteOffset] at h2

/-- Claim C3: for every base type and every byte span of the declared
width whose raw bit pattern equals the base type's fixed invalid-value
pattern exactly, the Value Decoder produces the explicit "invalid" tag
rather than the numeric interpretation, and "invalid" is distinct from a
valid zero under equality and under display. -/
theorem claim_c3 (bt : BaseType) (p : Nat) (bigE : Bool)
    (bytes : List Nat)
    (hp : bt.invalidPattern = some p)
    (hlen : bytes.length = bt.width)
    (hraw : assembleRaw bigE bytes = p) :
    decodeFieldValue bt bigE bytes = .ok (.scalar .invalid) ∧
    ScalarValue.invalid ≠ zeroValue bt ∧
    displayScalar ScalarValue.invalid ≠ displayScalar (zeroValue bt) := by
  refine ⟨?_, ?_, ?_⟩
  · cases bt <;>
      simp_all [decodeFieldValue, decodeScalar, BaseType.invalidPattern,
        BaseType.width]
  · cases bt <;> decide
  · cases bt <;> decide

/-- Witness for claim C3: the unsigned 16-bit span `0xFF 0xFF` decodes to
"invalid". -/
theorem claim_c3_witness :
    decodeFieldValue .uint16 false [255, 255] = .ok (.scalar .invalid) ∧
    ScalarValue.invalid ≠ zeroValue .uint16 ∧
    displayScalar ScalarValue.invalid ≠ displayScalar (zeroValue .uint16) :=
  claim_c3 .uint16 65535 false [255, 255] rfl rfl rfl

/-- A single byte decodes to the same scalar under either declared byte
order. -/
theorem decodeScalar_single (bt : BaseType) (bigE : Bool) (b : Nat) :
    decodeScalar bt bigE [b] = decodeScalar bt false [b] := by
  cases bigE <;> simp [decodeScalar, assembleRaw]

/-- Chunking a byte span at width 1 yields the singleton spans of its
bytes, given enough fuel. -/
theorem chunkBytes_one (fuel : Nat) :
    ∀ bytes : List Nat, bytes.length ≤ fuel →
      chunkBytes 1 fuel bytes = bytes.map (fun b => [b]) := by
  induction fuel with
  | zero =>
    intro bytes h
    have : bytes = [] := List.eq_nil_of_length_eq_zero (Nat.le_zero.mp h)
    subst this
    rfl
  | succ n ih =>
    intro bytes h
    cases bytes with
    | nil => rfl
    | cons b rest =>
      have hr : rest.length ≤ n := by
        simp only [List.length_cons] at h
        omega
      simp only [chunkBytes, List.take_succ_cons, List.take_zero,
        List.drop_succ_cons, List.drop_zero, List.map_cons]
      exact congrArg _ (ih rest hr)

/-- Claim C8 is false as stated: a palindromic multi-byte span decodes to
the same value under both byte orders — the unsigned 16-bit span
`[1, 1]` decodes to 257 under big and little endian alike. -/
theorem claim_c8_counterexample :
    1 < BaseType.width .uint16 ∧
    ([1, 1] : List Nat).length = BaseType.width .uint16 ∧
    decodeFieldValue .uint16 true [1, 1] =
      decodeFieldValue .uint16 false [1, 1] := by
  refine ⟨by decide, by decide, by decide⟩

/-- Claim C8 (amended): for every multi-byte base type there exists a
byte span of the declared width on which the big-endian and little-endian
decodes differ, while for every width-1 base type the decoded value is
independent of the declared byte order on every byte span. -/
theorem claim_c8 :
    (∀ bt : BaseType, 1 < bt.width →
      ∃ bytes : List Nat, bytes.length = bt.width ∧
        decodeFieldValue bt true bytes ≠ decodeFieldValue bt false bytes) ∧
    (∀ (bt : BaseType) (bytes : List Nat), bt.width = 1 →
      decodeFieldValue bt true bytes = decodeFieldValue bt false bytes) := by
  constructor
  · intro bt h
    cases bt
    case uint8 => exact absurd h (by decide)
    case sint8 => exact absurd h (by decide)
    case string => exact absurd h (by decide)
    case byteArr => exact absurd h (by decide)
    case uint16 => exact ⟨[0, 1], by decide, by decide⟩
    case uint32 => exact ⟨[0, 0, 0, 1], by decide, by decide⟩
    case uint64 =>
      exact ⟨[0, 0, 0, 0, 0, 0, 0, 1], by decide, by decide⟩
    case sint16 => exact ⟨[0, 1], by decide, by decide⟩
    case sint32 => exact ⟨[0, 0, 0, 1], by decide, by decide⟩
    case sint64 =>
      exact ⟨[0, 0, 0, 0, 0, 0, 0, 1], by decide, by decide⟩
    case float32 => exact ⟨[0, 0, 0, 1], by decide, by decide⟩
    case float64 =>
      exact ⟨[0, 0, 0, 0, 0, 0, 0, 1], by decide, by decide⟩
  · intro bt bytes h
    have hwidth1 : bt = .uint8 ∨ bt = .sint8 ∨ bt = .string ∨
        bt = .byteArr := by
      cases bt <;> simp_all [BaseType.width]
    have main : ∀ bt : BaseType, bt.width = 1 → bt ≠ .string →
        bt ≠ .byteArr →
        decodeFieldValue bt true bytes = decodeFieldValue bt false bytes := by
      intro bt hw hs hb
      have harm : ∀ bigE : Bool, decodeFieldValue bt bigE bytes =
          if bytes.length = bt.width then
            .ok (.scalar (decodeScalar bt bigE bytes))
          else if bytes.length % bt.width = 0 ∧ bytes.length ≠ 0 then
            .ok (.array ((chunkBytes bt.width bytes.length bytes).map
              (decodeScalar bt bigE)))
          else .error (.ValueError
            "field size is not a multiple of the base type width") := by
        intro bigE
        cases bt <;> simp_all [decodeFieldValue]
      rw [harm true, harm false, hw]
      by_cases h1 : bytes.length = 1
      · obtain ⟨b, rfl⟩ := List.length_eq_one.mp h1
        simp [decodeScalar_single]
      · rw [if_neg h1, if_neg h1]
        by_cases h2 : bytes.length % 1 = 0 ∧ bytes.length ≠ 0
        · rw [if_pos h2, if_pos h2]
          rw [chunkBytes_one bytes.length bytes le_rfl]
          simp only [List.map_map]
          have : ∀ b ∈ bytes,
              (decodeScalar bt true ∘ fun b => [b]) b =
                (decodeScalar bt false ∘ fun b => [b]) b := by
            intro b _
            exact decodeScalar_single bt true b
          rw [List.map_congr_left this]
        · rw [if_neg h2, if_neg h2]
    rcases hwidth1 with h8 | h8 | h8 | h8
    · exact h8 ▸ main .uint8 rfl (by decide) (by decide)
    · exact h8 ▸ main .sint8 rfl (by decide) (by decide)
    · subst h8; rfl
    · subst h8; rfl

/-- Witness for claim C8 (amended): instantiated at the unsigned 16-bit
type for the multi-byte part and at an unsigned 8-bit span of three bytes
for the order-independent part. -/
theorem claim_c8_witness :
    (∃ bytes : List Nat, bytes.length = BaseType.width .uint16 ∧
      decodeFieldValue .uint16 true bytes ≠
        decodeFieldValue .uint16 false bytes) ∧
    decodeFieldValue .uint8 true [7, 8, 9] =
      decodeFieldValue .uint8 false [7, 8, 9] :=
  ⟨claim_c8.1 .uint16 (by decide), claim_c8.2 .uint8 [7, 8, 9] (by decide)⟩

/-- Claim C4: registering a Definition for a local message number
unconditionally replaces any prior Definition for that number with no
merging — the channel's lookup yields only the second Definition, other
channels are untouched, and a data message decoded afterwards uses only
the second Definition's layout. -/
theorem claim_c4 (t : DefinitionTable) (n : Nat) (d1 d2 : Definition)
    (reg : DevRegistry) (pos : Nat) (bytes : List Nat) :
    lookup (define (define t n d1) n d2) n pos = .ok d2 ∧
    (∀ m, m ≠ n → define (define t n d1) n d2 m = t m) ∧
    decodeDataMessage (define (define t n d1) n d2) reg n pos bytes =
      decodeDataMessage (define t n d2) reg n pos bytes := by
  refine ⟨?_, ?_, ?_⟩
  · simp [lookup, define]
  · intro m hm
    simp [define, hm]
  · simp [decodeDataMessage, lookup, define]

/-- Witness for claim C4: two successive Definitions for local number 3,
then a lookup, an untouched channel 5, and a data decode. -/
theorem claim_c4_witness :
    lookup (define (define emptyTable 3 ⟨10, false, [⟨0, 1, .uint8⟩], []⟩)
        3 ⟨11, true, [⟨5, 2, .uint16⟩], []⟩) 3 0 =
      .ok ⟨11, true, [⟨5, 2, .uint16⟩], []⟩ ∧
    define (define emptyTable 3 ⟨10, false, [⟨0, 1, .uint8⟩], []⟩)
        3 ⟨11, true, [⟨5, 2, .uint16⟩], []⟩ 5 = emptyTable 5 ∧
    decodeDataMessage
        (define (define emptyTable 3 ⟨10, false, [⟨0, 1, .uint8⟩], []⟩)
          3 ⟨11, true, [⟨5, 2, .uint16⟩], []⟩) [] 3 0 [0, 1] =
      decodeDataMessage (define emptyTable 3 ⟨11, true, [⟨5, 2, .uint16⟩], []⟩)
        [] 3 0 [0, 1] :=
  ⟨(claim_c4 emptyTable 3 ⟨10, false, [⟨0, 1, .uint8⟩], []⟩
      ⟨11, true, [⟨5, 2, .uint16⟩], []⟩ [] 0 [0, 1]).1,
   (claim_c4 emptyTable 3 ⟨10, false, [⟨0, 1, .uint8⟩], []⟩
      ⟨11, true, [⟨5, 2, .uint16⟩], []⟩ [] 0 [0, 1]).2.1 5 (by decide),
   (claim_c4 emptyTable 3 ⟨10, false, [⟨0, 1, .uint8⟩], []⟩
      ⟨11, true, [⟨5, 2, .uint16⟩], []⟩ [] 0 [0, 1]).2.2⟩

end Fitparser

namespace Fitparser

/-- Claim C6: resolving a developer field whose (developer data index,
field definition number) pair has no earlier field-description entry
fails with `MissingDeveloperDefinitionMessage`; once the corresponding
field description is registered, the same resolution succeeds and an
identical data message decodes successfully. -/
theorem claim_c6 :
    (∀ (reg : DevRegistry) (i f : Nat),
      findDesc reg i f = none →
      resolve reg i f = .error .MissingDeveloperDefinitionMessage) ∧
    (∀ (reg : DevRegistry) (i f sz : Nat) (bt : BaseType),
      resolve (registerFieldDescription reg i f sz bt) i f =
        .ok (sz, bt)) ∧
    (∀ (g : Nat) (bigE : Bool) (i f szDecl : Nat) (bt : BaseType)
        (bytes : List Nat) (v : Value),
      bytes.length = bt.width →
      decodeFieldValue bt bigE bytes = .ok v →
      decodeDataFields ⟨g, bigE, [], [⟨f, szDecl, i⟩]⟩ [] bytes =
        .error .MissingDeveloperDefinitionMessage ∧
      decodeDataFields ⟨g, bigE, [], [⟨f, szDecl, i⟩]⟩
          (registerFieldDescription [] i f bt.width bt) bytes =
        .ok ([(f, v)], [])) := by
  refine ⟨?_, ?_, ?_⟩
  · intro reg i f h
    simp [resolve, h]
  · intro reg i f sz bt
    simp [resolve, findDesc, registerFieldDescription]
  · intro g bigE i f szDecl bt bytes v hlen hv
    constructor
    · simp [decodeDataFields, decodeFields, decodeDevFields, resolve,
        findDesc, Bind.bind, Except.bind]
    · simp only [decodeDataFields, decodeFields, decodeDevFields,
        resolve, findDesc, registerFieldDescription]
      simp only [List.find?, List.map, Bind.bind, Except.bind]
      have hnotlt : ¬ bytes.length < bt.width := by omega
      have htake : bytes.take bt.width = bytes := by
        rw [← hlen]
        exact List.take_length bytes
      have hdrop : bytes.drop bt.width = [] := by
        rw [← hlen]
        exact List.drop_length bytes
      simp [hnotlt, htake, hdrop, hv, Bind.bind, Except.bind]

/-- Witness for claim C6: the pair (index 2, field 7) fails against an
empty registry and succeeds after its field description is registered. -/
theorem claim_c6_witness :
    decodeDataFields ⟨20, false, [], [⟨7, 2, 2⟩]⟩ [] [52, 18] =
      .error .MissingDeveloperDefinitionMessage ∧
    decodeDataFields ⟨20, false, [], [⟨7, 2, 2⟩]⟩
        (registerFieldDescription [] 2 7 (BaseType.width .uint16) .uint16)
        [52, 18] =
      .ok ([(7, .scalar (.u16 4660))], []) :=
  claim_c6.2.2 20 false 2 7 2 .uint16 [52, 18] (.scalar (.u16 4660))
    rfl rfl

/-- Claim C5: a data record whose header cites a local message number
never registered in the Definition Table fails with
`MissingDefinitionMessage`, reporting that channel number and the byte
offset of the record header; and a successful record step changes a
channel's table entry only when the decoded record is a definition
message for that very channel — so an undefined channel stays undefined
until its definition message appears. -/
theorem claim_c5 :
    (∀ (st : DecoderState) (b : Nat) (rest : List Nat),
      (parseRecordHeader b).isDefinition = false →
      st.table (parseRecordHeader b).localNum = none →
      decodeRecord st (b :: rest) =
        .error (.MissingDefinitionMessage
          (parseRecordHeader b).localNum st.pos)) ∧
    (∀ (st : DecoderState) (bytes : List Nat) (r : DecodedRecord)
        (st2 : DecoderState) (rem : List Nat) (m : Nat),
      decodeRecord st bytes = .ok (r, st2, rem) →
      st2.table m ≠ st.table m →
      ∃ d, r = .definitionRec m d) := by
  constructor
  · intro st b rest h1 h2
    simp [decodeRecord, h1, lookup, h2, Bind.bind, Except.bind]
  · intro st bytes r st2 rem m hok hne
    cases bytes with
    | nil => exact Except.noConfusion hok
    | cons b rest =>
      simp only [decodeRecord] at hok
      by_cases hd : (parseRecordHeader b).isDefinition
      · rw [if_pos hd] at hok
        cases hpb : parseDefinitionBody (parseRecordHeader b).hasDevFields
            st.pos rest with
        | error e =>
          rw [hpb] at hok
          exact Except.noConfusion hok
        | ok pr =>
          rw [hpb] at hok
          injection hok with htup
          injection htup with h1 h23
          injection h23 with h2 h3
          by_cases hm : m = (parseRecordHeader b).localNum
          · exact ⟨pr.1, by rw [← h1, hm]⟩
          · exfalso
            apply hne
            rw [← h2]
            simp [define, hm]
      · rw [if_neg hd] at hok
        cases hlk : lookup st.table (parseRecordHeader b).localNum st.pos with
        | error e =>
          rw [hlk] at hok
          exact Except.noConfusion hok
        | ok d =>
          rw [hlk] at hok
          simp only [Bind.bind, Except.bind] at hok
          cases hdf : decodeDataFields d st.registry rest with
          | error e =>
            rw [hdf] at hok
            exact Except.noConfusion hok
          | ok pr =>
            rw [hdf] at hok
            injection hok with htup
            injection htup with h1 h23
            injection h23 with h2 h3
            exact absurd (by rw [← h2] : st2.table m = st.table m) hne

/-- Witness for claim C5: local number 9 cited at byte offset 14 with an
empty table fails citing channel 9 and offset 14; and the concrete
definition-message step that registers channel 0 is a definition record
for channel 0. -/
theorem claim_c5_witness :
    decodeRecord ⟨emptyTable, [], 14⟩ [9, 1, 2, 3] =
      .error (.MissingDefinitionMessage 9 14) ∧
    ∃ d, DecodedRecord.definitionRec 0 fixtureDefinition =
      .definitionRec 0 d :=
  ⟨claim_c5.1 ⟨emptyTable, [], 14⟩ 9 [1, 2, 3] rfl rfl,
   claim_c5.2 ⟨emptyTable, [], 0⟩ [64, 0, 0, 20, 0, 0]
     (.definitionRec 0 fixtureDefinition)
     ⟨define emptyTable 0 fixtureDefinition, [], 6⟩ [] 0 rfl
     (by simp [define, emptyTable])⟩

end Fitparser

namespace Fitparser

/-- Claim C7: encoding a synthetic Definition together with a matching
data record and decoding the resulting stream reproduces the original
field values exactly, including invalid-sentinel detection — the unsigned
16-bit field serialized from the "invalid" tag as `0xFF 0xFF` decodes
back to "invalid", not to 65535. -/
theorem claim_c7 :
    decodeRecords roundTripStream.length roundTripStream.length
        ⟨emptyTable, [], 0⟩ roundTripStream =
      .ok ([.definitionRec 0 syntheticDefinition,
            .dataRec 20 none
              [(1, .scalar (.u16 4660)), (2, .scalar .invalid)]],
        ⟨define emptyTable 0 syntheticDefinition, [], 17⟩, []) ∧
    [(1, Value.scalar (.u16 4660)), (2, Value.scalar .invalid)].map
        Prod.snd = syntheticValues ∧
    encodeValue false .uint16 (.scalar .invalid) = [255, 255] ∧
    Value.scalar ScalarValue.invalid ≠ Value.scalar (.u16 65535) := by
  exact ⟨rfl, rfl, rfl, by decide⟩

/-- Claim C1: at both CRC checkpoints a mismatch does not discard the
successful parse: the file checkpoint returns the recoverable
`InvalidCrc` error bundling the full, otherwise-successfully decoded
record stream with the expected and calculated CRC values, and the header
checkpoint returns it bundling the otherwise-successfully parsed header —
in both cases the error is non-fatal and its payload yields the parsed
object back to the caller. -/
theorem claim_c1 :
    (∀ (bytes : List Nat) (hdr : FileHeader) (rest rem : List Nat)
        (rs : List DecodedRecord) (st : DecoderState) (e cv : Nat),
      parseFileHeader bytes = .ok (hdr, rest) →
      decodeRecords (hdr.headerLength + hdr.dataSize) rest.length
        ⟨emptyTable, [], hdr.headerLength⟩ rest = .ok (rs, st, rem) →
      2 ≤ rem.length →
      assembleLE (rem.drop (rem.length - 2)) = e →
      fitCrc (bytes.take (hdr.headerLength + hdr.dataSize)) = cv →
      e ≠ cv →
      decodeFile bytes =
        .error (.InvalidCrc bytes
          (.records (.headerRec hdr :: rs)) e cv) ∧
      ErrorKind.isFatal (.InvalidCrc bytes
        (.records (.headerRec hdr :: rs)) e cv) = false ∧
      ErrorKind.invalidCrcPayload (.InvalidCrc bytes
          (.records (.headerRec hdr :: rs)) e cv) =
        some (bytes, .records (.headerRec hdr :: rs), e, cv)) ∧
    (∀ (bytes : List Nat) (stored cv : Nat),
      bytes.getD 0 0 = 14 →
      14 ≤ bytes.length →
      [bytes.getD 8 0, bytes.getD 9 0, bytes.getD 10 0,
        bytes.getD 11 0] = [46, 70, 73, 84] →
      assembleLE [bytes.getD 12 0, bytes.getD 13 0] = stored →
      fitCrc (bytes.take 12) = cv →
      stored ≠ 0 →
      stored ≠ cv →
      parseFileHeader bytes =
        .error (.InvalidCrc (bytes.take 14)
          (.header ⟨14, bytes.getD 1 0,
            assembleLE [bytes.getD 2 0, bytes.getD 3 0],
            assembleLE [bytes.getD 4 0, bytes.getD 5 0,
              bytes.getD 6 0, bytes.getD 7 0],
            some stored⟩) stored cv) ∧
      ErrorKind.isFatal (.InvalidCrc (bytes.take 14)
        (.header ⟨14, bytes.getD 1 0,
          assembleLE [bytes.getD 2 0, bytes.getD 3 0],
          assembleLE [bytes.getD 4 0, bytes.getD 5 0,
            bytes.getD 6 0, bytes.getD 7 0],
          some stored⟩) stored cv) = false) := by
  constructor
  · intro bytes hdr rest rem rs st e cv hparse hrecs hlen he hcv hne
    refine ⟨?_, rfl, rfl⟩
    simp only [decodeFile, hparse, hrecs, Bind.bind, Except.bind]
    rw [if_neg (by omega)]
    rw [he, hcv]
    rw [if_neg hne]
  · intro bytes stored cv h0 hlen hsig hst hcv hne0 hnecv
    refine ⟨?_, rfl⟩
    cases bytes with
    | nil => simp at hlen
    | cons b0 btl =>
      have hb0 : b0 = 14 := by simpa using h0
      subst hb0
      simp only [parseFileHeader]
      rw [if_neg (by simp)]
      rw [if_neg (by omega)]
      rw [if_neg (by simp [hsig] at hsig ⊢; simp [hsig])]
      rw [if_pos trivial]
      rw [hst, hcv]
      rw [if_pos ⟨hne0, hnecv⟩]

/-- Witness for claim C1: a complete fixture file whose trailing CRC is
off by one yields the recoverable CRC-mismatch bundling its three decoded
records, and a 14-byte header with a wrong stored header CRC yields the
recoverable CRC-mismatch bundling the parsed header. -/
theorem claim_c1_witness :
    decodeFile crcMismatchFile =
      .error (.InvalidCrc crcMismatchFile
        (.records (.headerRec fixtureHeader :: fixtureDecoded))
        59256 59255) ∧
    ErrorKind.isFatal (.InvalidCrc crcMismatchFile
      (.records (.headerRec fixtureHeader :: fixtureDecoded))
      59256 59255) = false ∧
    ErrorKind.invalidCrcPayload (.InvalidCrc crcMismatchFile
        (.records (.headerRec fixtureHeader :: fixtureDecoded))
        59256 59255) =
      some (crcMismatchFile,
        .records (.headerRec fixtureHeader :: fixtureDecoded),
        59256, 59255) ∧
    parseFileHeader badHeaderCrcBytes =
      .error (.InvalidCrc (badHeaderCrcBytes.take 14)
        (.header ⟨14, 16, 2132, 7, some 1⟩) 1 28566) := by
  have h1 := claim_c1.1 crcMismatchFile fixtureHeader
    (fixtureRecords ++ [120, 231]) [120, 231] fixtureDecoded
    ⟨define emptyTable 0 fixtureDefinition, [], 19⟩ 59256 59255
    (by rfl) (by rfl) (by decide) (by rfl) (by rfl) (by decide)
  have h2 := claim_c1.2 badHeaderCrcBytes 1 28566 (by rfl) (by decide)
    (by rfl) (by rfl) (by rfl) (by decide) (by decide)
  exact ⟨h1.1, h1.2.1, h1.2.2, h2.1⟩

/-- Claim C9: when the declared data size is fully consumed but
unconsumed bytes remain before the trailing CRC, the File Decoder still
succeeds, reporting the exact remaining count as a non-fatal
`TrailingBytes` condition alongside the full record stream. -/
theorem claim_c9 (bytes : List Nat) (hdr : FileHeader)
    (rest rem : List Nat) (rs : List DecodedRecord) (st : DecoderState)
    (k : Nat)
    (hparse : parseFileHeader bytes = .ok (hdr, rest))
    (hrecs : decodeRecords (hdr.headerLength + hdr.dataSize) rest.length
      ⟨emptyTable, [], hdr.headerLength⟩ rest = .ok (rs, st, rem))
    (hk : rem.length = k + 2)
    (hpos : 0 < k)
    (hcrc : assembleLE (rem.drop k) =
      fitCrc (bytes.take (hdr.headerLength + hdr.dataSize))) :
    decodeFile bytes =
      .ok ⟨.headerRec hdr :: rs, some (.TrailingBytes k)⟩ ∧
    ErrorKind.isFatal (.TrailingBytes k) = false := by
  refine ⟨?_, rfl⟩
  simp only [decodeFile, hparse, hrecs, Bind.bind, Except.bind]
  rw [if_neg (by omega)]
  have hdrop : rem.length - 2 = k := by omega
  rw [hdrop, hcrc, if_pos rfl]
  rw [if_neg (by omega)]

/-- Witness for claim C9: a fixture file declaring a data size 4 bytes
short of the record bytes present reports `TrailingBytes 4` while still
yielding its three records. -/
theorem claim_c9_witness :
    decodeFile trailingBytesFile =
      .ok ⟨.headerRec fixtureHeader :: fixtureDecoded,
        some (.TrailingBytes 4)⟩ ∧
    ErrorKind.isFatal (.TrailingBytes 4) = false :=
  claim_c9 trailingBytesFile fixtureHeader
    (fixtureRecords ++ [170, 187, 204, 221, 119, 231])
    [170, 187, 204, 221, 119, 231] fixtureDecoded
    ⟨define emptyTable 0 fixtureDefinition, [], 19⟩ 4
    (by rfl) (by rfl) (by rfl) (by decide) (by rfl)

end Fitparser
